import Mathlib

/-!
Verification development for the room-subscription server
(`server/internal/api/api.go`).

The registry `apiHandler.subscribes` is a Go map
`map[string]map[*websocket.Conn]context.CancelFunc`.  We model connections
as natural numbers, the inner map as the list of its connection keys (Go
map keys are unique, so well-formed inner lists are duplicate-free), and
the outer map as an association list from the raw room-id string to the
inner list.  Go map lookup of an absent key yields the zero value (nil),
so lookups return `Option`.
-/

set_option autoImplicit false

namespace RoomServer

/-- A websocket connection handle (`*websocket.Conn`), modelled opaquely. -/
abbrev Conn := Nat

/-- The subscription registry `apiHandler.subscribes`:
`map[string]map[*websocket.Conn]context.CancelFunc`, keyed by the raw
room-id string; the inner map is represented by its key set (as a list). -/
abbrev Registry := List (String × List Conn)

/-- Go map read `h.subscribes[k]`: `none` models the nil inner map obtained
when the key is absent. -/
def lookupRoom : Registry → String → Option (List Conn)
  | [], _ => none
  | (k', v) :: rest, k => if k' = k then some v else lookupRoom rest k

/-- Go map write `h.subscribes[k] = v`: replaces the binding of `k`, or adds
it when absent. -/
def setRoom : Registry → String → List Conn → Registry
  | [], k, v => [(k, v)]
  | (k', v') :: rest, k, v =>
      if k' = k then (k, v) :: rest else (k', v') :: setRoom rest k v

/-- Go inner-map write `inner[c] = cancel` restricted to the key set:
assigning an existing key replaces its value, so the key set gains `c`
only when absent. -/
def insertConn (s : List Conn) (c : Conn) : List Conn :=
  if c ∈ s then s else s ++ [c]

/-- Lines 124-130 of `api.go`: create the inner map if the room key is
absent (`make(map[*websocket.Conn]context.CancelFunc, 0)`), then store the
connection (`h.subscribes[rawRoomId][c] = cancel`). -/
def register (m : Registry) (k : String) (c : Conn) : Registry :=
  setRoom m k (insertConn ((lookupRoom m k).getD []) c)

/-- Line 138 of `api.go`: `delete(h.subscribes[rawRoomId], c)`.  When the
room key is absent the inner map is nil and `delete` is a no-op; otherwise
`c` is removed from the inner map while the (possibly now empty) room
entry stays in the outer map. -/
def unregister (m : Registry) (k : String) (c : Conn) : Registry :=
  match lookupRoom m k with
  | none => m
  | some s => setRoom m k (s.erase c)

/-- The listener set the broadcaster would iterate for a room: the inner
map's key set, empty when the room key is absent. -/
def snapshot (m : Registry) (k : String) : List Conn :=
  (lookupRoom m k).getD []

theorem lookupRoom_setRoom_self (m : Registry) (k : String) (v : List Conn) :
    lookupRoom (setRoom m k v) k = some v := by
  induction m with
  | nil => simp [setRoom, lookupRoom]
  | cons p rest ih =>
      obtain ⟨k', v'⟩ := p
      by_cases h : k' = k <;> simp [setRoom, lookupRoom, h, ih]

theorem lookupRoom_setRoom_ne (m : Registry) (k r : String) (v : List Conn)
    (h : r ≠ k) : lookupRoom (setRoom m k v) r = lookupRoom m r := by
  have hkr : k ≠ r := Ne.symm h
  induction m with
  | nil => simp [setRoom, lookupRoom, hkr]
  | cons p rest ih =>
      obtain ⟨k', v'⟩ := p
      by_cases hk : k' = k
      · subst hk
        simp [setRoom, lookupRoom, hkr]
      · by_cases hr : k' = r <;> simp [setRoom, lookupRoom, hk, hr, h, ih]

theorem setRoom_lookup_eq (m : Registry) (k : String) (s : List Conn)
    (h : lookupRoom m k = some s) : setRoom m k s = m := by
  induction m with
  | nil => simp [lookupRoom] at h
  | cons p rest ih =>
      obtain ⟨k', v'⟩ := p
      by_cases hk : k' = k
      · subst hk
        simp [lookupRoom] at h
        simp [setRoom, h]
      · simp [lookupRoom, hk] at h
        simp [setRoom, hk, ih h]

theorem setRoom_setRoom (m : Registry) (k : String) (v w : List Conn) :
    setRoom (setRoom m k v) k w = setRoom m k w := by
  induction m with
  | nil => simp [setRoom]
  | cons p rest ih =>
      obtain ⟨k', v'⟩ := p
      by_cases hk : k' = k <;> simp [setRoom, hk, ih]

theorem snapshot_unregister (m : Registry) (k : String) (c : Conn) :
    snapshot (unregister m k c) k = (snapshot m k).erase c := by
  unfold unregister snapshot
  cases h : lookupRoom m k with
  | none => simp [h]
  | some s => simp [h, lookupRoom_setRoom_self]

theorem snapshot_unregister_ne (m : Registry) (k r : String) (c : Conn)
    (h : r ≠ k) : snapshot (unregister m k c) r = snapshot m r := by
  unfold unregister snapshot
  cases hl : lookupRoom m k with
  | none => rfl
  | some s => simp [lookupRoom_setRoom_ne _ _ _ _ h]

/-- C6: the registration step always succeeds.  If the room has no entry a
fresh singleton listener set is created; in every case the session joins
the room's listener set; every other room's binding is untouched. -/
theorem register_spec (m : Registry) (k : String) (c : Conn) :
    (lookupRoom m k = none → lookupRoom (register m k c) k = some [c]) ∧
    c ∈ (lookupRoom (register m k c) k).getD [] ∧
    (∀ r : String, r ≠ k → lookupRoom (register m k c) r = lookupRoom m r) := by
  refine ⟨?_, ?_, ?_⟩
  · intro h
    simp [register, h, insertConn, lookupRoom_setRoom_self]
  · simp only [register, lookupRoom_setRoom_self, Option.getD_some]
    unfold insertConn
    split
    · assumption
    · simp
  · intro r hr
    exact lookupRoom_setRoom_ne _ _ _ _ hr

theorem register_spec_witness :
    (lookupRoom ([] : Registry) "room" = none →
      lookupRoom (register [] "room" 7) "room" = some [7]) ∧
    7 ∈ (lookupRoom (register [] "room" 7) "room").getD [] ∧
    lookupRoom (register [] "room" 7) "other" = lookupRoom [] "other" := by
  obtain ⟨h1, h2, h3⟩ := register_spec [] "room" 7
  exact ⟨h1, h2, h3 "other" (by decide)⟩

/-- C7: `delete(h.subscribes[rawRoomId], c)` never fails; removing an
absent session leaves the registry structurally unchanged, and (for
well-formed inner maps, whose key lists are duplicate-free as Go map keys
are) unregistering twice equals unregistering once. -/
theorem unregister_idempotent (m : Registry) (k : String) (c : Conn) :
    (c ∉ (lookupRoom m k).getD [] → unregister m k c = m) ∧
    (((lookupRoom m k).getD []).Nodup →
      unregister (unregister m k c) k c = unregister m k c) := by
  constructor
  · intro hc
    unfold unregister
    cases h : lookupRoom m k with
    | none => rfl
    | some s =>
        rw [h] at hc
        simp only [Option.getD_some] at hc
        simp [List.erase_of_not_mem hc, setRoom_lookup_eq m k s h]
  · intro hnd
    unfold unregister
    cases h : lookupRoom m k with
    | none => simp [h]
    | some s =>
        rw [h] at hnd
        simp only [Option.getD_some] at hnd
        rw [lookupRoom_setRoom_self]
        simp only
        rw [List.erase_of_not_mem hnd.not_mem_erase, setRoom_setRoom]

theorem unregister_idempotent_witness :
    (unregister [("room", [2])] "room" 1 = [("room", [2])]) ∧
    (unregister (unregister [("room", [1, 2])] "room" 1) "room" 1 =
      unregister [("room", [1, 2])] "room" 1) := by
  constructor
  · exact (unregister_idempotent [("room", [2])] "room" 1).1 (by decide)
  · exact (unregister_idempotent [("room", [1, 2])] "room" 1).2 (by decide)

/-- C8: unregistering removes only the given session: the room's entry is
retained in the outer map (now bound to the listener set without the
session), every other session stays in the room's set, and every other
room's binding is untouched. -/
theorem unregister_frame (m : Registry) (k : String) (c : Conn)
    (s : List Conn) (h : lookupRoom m k = some s) :
    lookupRoom (unregister m k c) k = some (s.erase c) ∧
    (∀ x : Conn, x ≠ c → (x ∈ s.erase c ↔ x ∈ s)) ∧
    (∀ r : String, r ≠ k → lookupRoom (unregister m k c) r = lookupRoom m r) := by
  refine ⟨?_, ?_, ?_⟩
  · simp [unregister, h, lookupRoom_setRoom_self]
  · intro x hx
    exact List.mem_erase_of_ne hx
  · intro r hr
    simp only [unregister, h]
    exact lookupRoom_setRoom_ne _ _ _ _ hr

theorem unregister_frame_witness :
    lookupRoom [("a", [1, 2]), ("b", [3])] "a" = some [1, 2] ∧
    lookupRoom (unregister [("a", [1, 2]), ("b", [3])] "a" 1) "a" = some [2] ∧
    (2 ∈ ([1, 2] : List Conn).erase 1 ↔ 2 ∈ ([1, 2] : List Conn)) ∧
    lookupRoom (unregister [("a", [1, 2]), ("b", [3])] "a" 1) "b" =
      lookupRoom [("a", [1, 2]), ("b", [3])] "b" := by
  have h : lookupRoom [("a", [1, 2]), ("b", [3])] "a" = some [1, 2] := by decide
  obtain ⟨h1, h2, h3⟩ := unregister_frame [("a", [1, 2]), ("b", [3])] "a" 1 [1, 2] h
  exact ⟨h, by simpa using h1, h2 2 (by decide), h3 "b" (by decide)⟩

/-! ### UUID parsing (`github.com/google/uuid`, used by `handleSubscribe`) -/

/-- The `xvalues` table of github.com/google/uuid: the value of a hex
character, 255 for any other character. -/
def xvalue (c : Char) : Nat :=
  if '0' ≤ c ∧ c ≤ '9' then c.toNat - '0'.toNat
  else if 'a' ≤ c ∧ c ≤ 'f' then c.toNat - 'a'.toNat + 10
  else if 'A' ≤ c ∧ c ≤ 'F' then c.toNat - 'A'.toNat + 10
  else 255

/-- `xtob(x1, x2)`: converts two hex characters into a byte, failing when
either is not a hex digit. -/
def xtob (c1 c2 : Char) : Option Nat :=
  if xvalue c1 = 255 ∨ xvalue c2 = 255 then none
  else some (xvalue c1 * 16 + xvalue c2)

/-- Reads the byte encoded at positions `i, i+1` of the character list. -/
def byteAt (l : List Char) (i : Nat) : Option Nat :=
  match l.get? i, l.get? (i + 1) with
  | some c1, some c2 => xtob c1 c2
  | _, _ => none

/-- Start positions of the 16 byte groups in the canonical hyphenated
form, as listed in google/uuid's `Parse`. -/
def hyphenatedPositions : List Nat :=
  [0, 2, 4, 6, 9, 11, 14, 16, 19, 21, 24, 26, 28, 30, 32, 34]

/-- Start positions of the 16 byte groups in the 32-character form. -/
def compactPositions : List Nat :=
  [0, 2, 4, 6, 8, 10, 12, 14, 16, 18, 20, 22, 24, 26, 28, 30]

/-- The hyphenated tail of google/uuid's `Parse`: requires hyphens at
positions 8, 13, 18, 23 and decodes the 16 byte groups. -/
def parseHyphenated (l : List Char) : Option (List Nat) :=
  if l.get? 8 = some '-' ∧ l.get? 13 = some '-' ∧
      l.get? 18 = some '-' ∧ l.get? 23 = some '-' then
    hyphenatedPositions.mapM (byteAt l)
  else none

/-- `strings.EqualFold` restricted to the ASCII prefix it is applied to
(`"urn:uuid:"`). -/
def eqFoldAscii (a b : List Char) : Bool :=
  a.map Char.toLower == b.map Char.toLower

/-- google/uuid's `Parse` (`uuid.Parse` at line 86 of `api.go`): accepts
the 36-character hyphenated form, the urn-prefixed form, the braced form
and the 32-character compact form, producing the 16 UUID bytes. -/
def uuidParse (s : String) : Option (List Nat) :=
  let l := s.data
  if l.length = 36 then parseHyphenated l
  else if l.length = 45 then
    if eqFoldAscii (l.take 9) "urn:uuid:".data then parseHyphenated (l.drop 9)
    else none
  else if l.length = 38 then parseHyphenated (l.drop 1)
  else if l.length = 32 then compactPositions.mapM (byteAt l)
  else none

/-! ### The subscribe handler (`handleSubscribe`, lines 83-141) -/

/-- Outcome of `h.q.GetRoom(r.Context(), roomId)`: a row, `pgx.ErrNoRows`,
or any other error. -/
inductive GetRoomResult where
  | found
  | noRows
  | failure
  deriving DecidableEq

/-- Outcome of `h.upgrader.Upgrade(w, r, nil)`. -/
inductive UpgradeResult where
  | success (c : Conn)
  | failure
  deriving DecidableEq

/-- The external inputs of one `handleSubscribe` call: the raw
`room_id` URL parameter and the store / upgrade outcomes. -/
structure SubscribeEnv where
  rawRoomId : String
  getRoom : GetRoomResult
  upgrade : UpgradeResult
  deriving DecidableEq

/-- Which return path of `handleSubscribe` was taken. -/
inductive SubscribeOutcome where
  | invalidId
  | roomNotFound
  | internalError
  | upgradeFailed
  | completed
  deriving DecidableEq

/-- An HTTP response as far as the handlers shape one: status code, body,
and the content-type header if set. -/
structure HttpResponse where
  status : Nat
  body : String
  contentType : Option String
  deriving DecidableEq

/-- `http.Error(w, msg, status)`: sets Content-Type to text/plain and
appends a newline to the message. -/
def errorResponse (status : Nat) (msg : String) : HttpResponse :=
  ⟨status, msg ++ "\n", some "text/plain; charset=utf-8"⟩

/-- Observable effects of one run-to-completion `handleSubscribe` call:
the HTTP response (none once the connection is hijacked by the upgrade),
whether the store was queried and the upgrade succeeded, the register /
unregister / close operations performed in order, the registry right
after the registration block, and the registry when the handler returns. -/
structure SubscribeResult where
  outcome : SubscribeOutcome
  response : Option HttpResponse
  storeQueried : Bool
  upgraded : Bool
  registered : List (String × Conn)
  registryAfterRegister : Registry
  finalRegistry : Registry
  unregistered : List (String × Conn)
  closed : List Conn
  deriving DecidableEq

/-- `handleSubscribe` run to completion: parse the raw room id, look the
room up, upgrade, register the connection under the raw room-id string,
block until the cancellation context fires, delete the connection, and
let the deferred `c.Close()` run.  Error paths return before any registry
access. -/
def handleSubscribe (env : SubscribeEnv) (m : Registry) : SubscribeResult :=
  match uuidParse env.rawRoomId with
  | none =>
      { outcome := .invalidId
        response := some (errorResponse 400 "Invalid room id")
        storeQueried := false, upgraded := false, registered := []
        registryAfterRegister := m, finalRegistry := m
        unregistered := [], closed := [] }
  | some _ =>
      match env.getRoom with
      | .noRows =>
          { outcome := .roomNotFound
            response := some (errorResponse 400 "Room not found")
            storeQueried := true, upgraded := false, registered := []
            registryAfterRegister := m, finalRegistry := m
            unregistered := [], closed := [] }
      | .failure =>
          { outcome := .internalError
            response := some (errorResponse 500 "Something went wrong")
            storeQueried := true, upgraded := false, registered := []
            registryAfterRegister := m, finalRegistry := m
            unregistered := [], closed := [] }
      | .found =>
          match env.upgrade with
          | .failure =>
              { outcome := .upgradeFailed
                response := some (errorResponse 400 "Failed to upgrade to WS connection")
                storeQueried := true, upgraded := false, registered := []
                registryAfterRegister := m, finalRegistry := m
                unregistered := [], closed := [] }
          | .success c =>
              let m1 := register m env.rawRoomId c
              { outcome := .completed
                response := none
                storeQueried := true, upgraded := true
                registered := [(env.rawRoomId, c)]
                registryAfterRegister := m1
                finalRegistry := unregister m1 env.rawRoomId c
                unregistered := [(env.rawRoomId, c)], closed := [c] }

/-- C5: a room id that fails UUID parsing is rejected with 400
"Invalid room id" before the store is queried or the connection upgraded,
and the registry is untouched. -/
theorem subscribe_invalid_id (env : SubscribeEnv) (m : Registry)
    (h : uuidParse env.rawRoomId = none) :
    (handleSubscribe env m).outcome = .invalidId ∧
    (handleSubscribe env m).response = some (errorResponse 400 "Invalid room id") ∧
    (handleSubscribe env m).storeQueried = false ∧
    (handleSubscribe env m).upgraded = false ∧
    (handleSubscribe env m).finalRegistry = m ∧
    (handleSubscribe env m).registered = [] := by
  simp [handleSubscribe, h]

theorem subscribe_invalid_id_witness :
    uuidParse "not-a-uuid" = none ∧
    (handleSubscribe ⟨"not-a-uuid", .found, .failure⟩ [("a", [1])]).storeQueried = false ∧
    (handleSubscribe ⟨"not-a-uuid", .found, .failure⟩ [("a", [1])]).finalRegistry = [("a", [1])] := by
  have h : uuidParse "not-a-uuid" = none := by decide
  obtain ⟨_, _, h3, _, h5, _⟩ :=
    subscribe_invalid_id ⟨"not-a-uuid", .found, .failure⟩ [("a", [1])] h
  exact ⟨h, h3, h5⟩

/-- C4: a well-formed room id whose lookup yields `pgx.ErrNoRows` gets the
"Room not found" outcome; the connection is never upgraded and the
registry is exactly as before, so no entry for the room id is created or
modified. -/
theorem subscribe_room_not_found (env : SubscribeEnv) (m : Registry)
    (hp : (uuidParse env.rawRoomId).isSome) (hr : env.getRoom = .noRows) :
    (handleSubscribe env m).outcome = .roomNotFound ∧
    (handleSubscribe env m).response = some (errorResponse 400 "Room not found") ∧
    (handleSubscribe env m).upgraded = false ∧
    (handleSubscribe env m).finalRegistry = m ∧
    (handleSubscribe env m).registered = [] ∧
    lookupRoom (handleSubscribe env m).finalRegistry env.rawRoomId =
      lookupRoom m env.rawRoomId := by
  cases hu : uuidParse env.rawRoomId with
  | none => rw [hu] at hp; simp at hp
  | some u => simp [handleSubscribe, hu, hr]

theorem subscribe_room_not_found_witness :
    (uuidParse "00000000-0000-0000-0000-000000000000").isSome ∧
    (handleSubscribe ⟨"00000000-0000-0000-0000-000000000000", .noRows, .failure⟩
      []).outcome = .roomNotFound ∧
    (handleSubscribe ⟨"00000000-0000-0000-0000-000000000000", .noRows, .failure⟩
      []).finalRegistry = [] := by
  have hp : (uuidParse "00000000-0000-0000-0000-000000000000").isSome := by decide
  obtain ⟨h1, _, _, h4, _, _⟩ :=
    subscribe_room_not_found
      ⟨"00000000-0000-0000-0000-000000000000", .noRows, .failure⟩ [] hp rfl
  exact ⟨hp, h1, h4⟩

/-- C2: on every setup-error path (malformed id, room lookup failure,
upgrade failure) `handleSubscribe` returns with the registry exactly as it
was and with no registration performed; a registration implies the
upgrade succeeded. -/
theorem subscribe_setup_errors_atomic (env : SubscribeEnv) (m : Registry) :
    ((handleSubscribe env m).outcome ≠ .completed →
      (handleSubscribe env m).finalRegistry = m ∧
      (handleSubscribe env m).registryAfterRegister = m ∧
      (handleSubscribe env m).registered = []) ∧
    ((handleSubscribe env m).registered ≠ [] →
      (handleSubscribe env m).upgraded = true) := by
  unfold handleSubscribe
  cases hu : uuidParse env.rawRoomId with
  | none => simp
  | some u =>
      cases hr : env.getRoom with
      | noRows => simp
      | failure => simp
      | found =>
          cases hup : env.upgrade with
          | failure => simp
          | success c => simp

theorem subscribe_setup_errors_atomic_witness :
    (handleSubscribe ⟨"not-a-uuid", .found, .success 5⟩ [("a", [1])]).finalRegistry
      = [("a", [1])] ∧
    (handleSubscribe ⟨"00000000-0000-0000-0000-000000000000", .found, .success 5⟩
      []).upgraded = true := by
  constructor
  · exact ((subscribe_setup_errors_atomic ⟨"not-a-uuid", .found, .success 5⟩
      [("a", [1])]).1 (by decide)).1
  · exact (subscribe_setup_errors_atomic
      ⟨"00000000-0000-0000-0000-000000000000", .found, .success 5⟩ []).2 (by decide)

/-- C3: once the upgrade has succeeded, the handler performs exactly one
deletion of the session from the registry and exactly one close of the
connection (the deferred `c.Close()`), on its single post-upgrade exit
path; no pre-upgrade path closes or unregisters anything. -/
theorem subscribe_teardown_once (env : SubscribeEnv) (m : Registry) (c : Conn) :
    (env.upgrade = .success c → (handleSubscribe env m).upgraded = true →
      (handleSubscribe env m).closed = [c] ∧
      (handleSubscribe env m).unregistered = [(env.rawRoomId, c)] ∧
      (handleSubscribe env m).finalRegistry =
        unregister (handleSubscribe env m).registryAfterRegister env.rawRoomId c) ∧
    ((handleSubscribe env m).upgraded = false →
      (handleSubscribe env m).closed = [] ∧
      (handleSubscribe env m).unregistered = []) := by
  unfold handleSubscribe
  cases hu : uuidParse env.rawRoomId with
  | none => simp
  | some u =>
      cases hr : env.getRoom with
      | noRows => simp
      | failure => simp
      | found =>
          cases hup : env.upgrade with
          | failure => simp
          | success c' =>
              constructor
              · intro h1 _
                injection h1 with hc
                subst hc
                simp
              · intro h2
                simp at h2

theorem subscribe_teardown_once_witness :
    (handleSubscribe ⟨"00000000-0000-0000-0000-000000000000", .found, .success 5⟩
      []).closed = [5] ∧
    (handleSubscribe ⟨"00000000-0000-0000-0000-000000000000", .found, .success 5⟩
      []).unregistered = [("00000000-0000-0000-0000-000000000000", 5)] ∧
    (handleSubscribe ⟨"not-a-uuid", .found, .failure⟩ []).closed = [] := by
  obtain ⟨h1, h2, _⟩ :=
    (subscribe_teardown_once
      ⟨"00000000-0000-0000-0000-000000000000", .found, .success 5⟩ [] 5).1
      rfl (by decide)
  obtain ⟨h3, _⟩ :=
    (subscribe_teardown_once ⟨"not-a-uuid", .found, .failure⟩ [] 0).2 (by decide)
  exact ⟨h1, h2, h3⟩

/-- C9: the registry is keyed by the raw URL string, not the parsed UUID:
the upper- and lower-case spellings of one UUID are different keys that
both parse to the same UUID value, and subscribing with each yields two
distinct entries with separate listener sets; within one handler call the
same raw string is used for registration and removal. -/
theorem registry_keyed_by_raw_string :
    (("AAAAAAAA-AAAA-AAAA-AAAA-AAAAAAAAAAAA" : String) ==
      "aaaaaaaa-aaaa-aaaa-aaaa-aaaaaaaaaaaa") = false ∧
    (uuidParse "AAAAAAAA-AAAA-AAAA-AAAA-AAAAAAAAAAAA").isSome = true ∧
    uuidParse "AAAAAAAA-AAAA-AAAA-AAAA-AAAAAAAAAAAA" =
      uuidParse "aaaaaaaa-aaaa-aaaa-aaaa-aaaaaaaaaaaa" ∧
    lookupRoom (register (register [] "AAAAAAAA-AAAA-AAAA-AAAA-AAAAAAAAAAAA" 1)
      "aaaaaaaa-aaaa-aaaa-aaaa-aaaaaaaaaaaa" 2)
      "AAAAAAAA-AAAA-AAAA-AAAA-AAAAAAAAAAAA" = some [1] ∧
    lookupRoom (register (register [] "AAAAAAAA-AAAA-AAAA-AAAA-AAAAAAAAAAAA" 1)
      "aaaaaaaa-aaaa-aaaa-aaaa-aaaaaaaaaaaa" 2)
      "aaaaaaaa-aaaa-aaaa-aaaa-aaaaaaaaaaaa" = some [2] ∧
    ∀ (env : SubscribeEnv) (m : Registry),
      (handleSubscribe env m).unregistered = (handleSubscribe env m).registered ∧
      ((handleSubscribe env m).registered.all fun p => p.1 == env.rawRoomId) = true := by
  refine ⟨by decide, by decide, by decide, by decide, by decide, ?_⟩
  intro env m
  unfold handleSubscribe
  cases hu : uuidParse env.rawRoomId with
  | none => simp
  | some u =>
      cases hr : env.getRoom with
      | noRows => simp
      | failure => simp
      | found =>
          cases hup : env.upgrade with
          | failure => simp
          | success c => simp

/-! ### Event broadcaster -/

/-- Modelled from the spec: the repository's mutating message handlers
(`handleCreateRoomMessage` and the other stubs at lines 176-188 of
`api.go`) are empty, so no broadcaster exists in the source.  Section 4.3
of the spec defines `Broadcast(roomId, event)`: take `Snapshot(roomId)`
from the registry, attempt delivery to each session independently
(`deliverOk` gives each session's delivery outcome), never abort on a
per-session failure, and remove each failed session from the registry
instead of retrying.  Returns the sessions that received the event and
the registry after the self-healing removals. -/
def broadcast (deliverOk : Conn → Bool) (m : Registry) (k : String) :
    List Conn × Registry :=
  let snap := snapshot m k
  (snap.filter (fun c => deliverOk c),
    (snap.filter (fun c => !deliverOk c)).foldl (fun acc c => unregister acc k c) m)

theorem snapshot_foldl_unregister_not_mem (k : String) (c : Conn)
    (l : List Conn) (m : Registry) (h : c ∉ snapshot m k) :
    c ∉ snapshot (l.foldl (fun acc x => unregister acc k x) m) k := by
  induction l generalizing m with
  | nil => exact h
  | cons x xs ih =>
      simp only [List.foldl_cons]
      apply ih
      rw [snapshot_unregister]
      intro hc
      exact h (List.mem_of_mem_erase hc)

theorem snapshot_foldl_unregister_mem (k : String) (c : Conn) (l : List Conn) :
    ∀ m : Registry, (snapshot m k).Nodup → c ∈ l →
      c ∉ snapshot (l.foldl (fun acc x => unregister acc k x) m) k := by
  induction l with
  | nil =>
      intro m _ hc
      cases hc
  | cons x xs ih =>
      intro m hnd hc
      simp only [List.foldl_cons]
      by_cases hx : c = x
      · subst hx
        apply snapshot_foldl_unregister_not_mem
        rw [snapshot_unregister]
        exact hnd.not_mem_erase
      · rcases List.mem_cons.mp hc with h1 | h2
        · exact absurd h1 hx
        · exact ih (unregister m k x)
            (by rw [snapshot_unregister]; exact hnd.erase x) h2

/-- C1: `Broadcast` delivers exactly to the sessions of the snapshot
taken at call time whose delivery succeeds; a session absent from that
snapshot (such as one registered after it was taken) receives nothing;
and a session whose delivery fails is removed from the room's listener
set and is absent from any subsequent broadcast's deliveries. -/
theorem broadcast_spec (dOk dOk2 : Conn → Bool) (m : Registry) (k : String)
    (c : Conn) (hnd : (snapshot m k).Nodup) :
    (c ∈ (broadcast dOk m k).1 ↔ c ∈ snapshot m k ∧ dOk c = true) ∧
    (c ∉ snapshot m k → c ∉ (broadcast dOk m k).1) ∧
    (c ∈ snapshot m k → dOk c = false →
      c ∉ snapshot (broadcast dOk m k).2 k ∧
      c ∉ (broadcast dOk2 (broadcast dOk m k).2 k).1) := by
  refine ⟨?_, ?_, ?_⟩
  · simp [broadcast, List.mem_filter]
  · intro h hmem
    simp only [broadcast] at hmem
    exact h (List.mem_filter.mp hmem).1
  · intro hc hf
    have hrem : c ∉ snapshot (broadcast dOk m k).2 k := by
      simp only [broadcast]
      apply snapshot_foldl_unregister_mem k c _ m hnd
      simp [List.mem_filter, hc, hf]
    refine ⟨hrem, ?_⟩
    intro hmem
    simp only [broadcast] at hmem
    exact hrem (List.mem_filter.mp hmem).1

theorem broadcast_spec_witness :
    (snapshot [("r", [1, 2])] "r").Nodup ∧
    2 ∉ snapshot (broadcast (fun c => c == 1) [("r", [1, 2])] "r").2 "r" ∧
    2 ∉ (broadcast (fun _ => true)
      (broadcast (fun c => c == 1) [("r", [1, 2])] "r").2 "r").1 := by
  have hnd : (snapshot [("r", [1, 2])] "r").Nodup := by decide
  have h := (broadcast_spec (fun c => c == 1) (fun _ => true)
    [("r", [1, 2])] "r" 2 hnd).2.2 (by decide) (by decide)
  exact ⟨hnd, h.1, h.2⟩

/-! ### Room creation (`handleCreateRoom`, lines 143-174) and Go JSON
encoding of its `response` struct -/

/-- A lowercase hex digit character. -/
def hexDigit (n : Nat) : Char :=
  if n < 10 then Char.ofNat ('0'.toNat + n) else Char.ofNat ('a'.toNat + (n - 10))

/-- One byte printed as two lowercase hex characters (`%02x`). -/
def byteHex (b : Nat) : List Char := [hexDigit (b / 16 % 16), hexDigit (b % 16)]

/-- A byte sequence printed as lowercase hex. -/
def bytesHex (l : List Nat) : List Char := (l.map byteHex).flatten

/-- The characters of `uuid.UUID.String()`: the canonical lowercase
hyphenated 8-4-4-4-12 form of the 16 bytes. -/
def uuidChars (u : List Nat) : List Char :=
  bytesHex (u.take 4) ++ '-' :: bytesHex ((u.drop 4).take 2) ++
    '-' :: bytesHex ((u.drop 6).take 2) ++ '-' :: bytesHex ((u.drop 8).take 2) ++
    '-' :: bytesHex (u.drop 10)

/-- `uuid.UUID.String()` (`roomId.String()` at line 169 of `api.go`). -/
def uuidString (u : List Nat) : String := String.mk (uuidChars u)

/-- The inner quoted-value scan of `reflect.StructTag.Lookup`: from the
character after the opening quote, advance to the closing quote, skipping
the character after each backslash; returns the raw value characters and
the rest of the tag, failing when the quote never closes. -/
def scanQuoted : List Char → List Char → Option (List Char × List Char)
  | [], _ => none
  | c :: rest, acc =>
    if c = '"' then some (acc.reverse, rest)
    else if c = '\\' then
      match rest with
      | [] => none
      | d :: rest2 => scanQuoted rest2 (d :: '\\' :: acc)
    else scanQuoted rest (c :: acc)

/-- `strconv.Unquote` restricted to the escape forms that can occur in
the quoted tag values scanned above (plain characters plus the escaped
quote and backslash); other escapes are rejected. -/
def unquoteSimple : List Char → Option (List Char)
  | [] => some []
  | '\\' :: c :: rest =>
      if c = '"' ∨ c = '\\' then (unquoteSimple rest).map (fun l => c :: l)
      else none
  | '\\' :: [] => none
  | c :: rest => (unquoteSimple rest).map (fun l => c :: l)

/-- `reflect.StructTag.Lookup`: scans space-separated `key:"value"` pairs
left to right; any syntax deviation — in particular a missing colon, as
in the malformed tag `json"id"` of `handleCreateRoom`'s `response`
struct — stops the scan with no result.  The fuel argument bounds the
iteration count by the tag length. -/
def structTagGetAux : Nat → List Char → String → Option String
  | 0, _, _ => none
  | fuel + 1, tag, key =>
    let tag1 := tag.dropWhile (fun c => c == ' ')
    if tag1.isEmpty then none
    else
      let name := tag1.takeWhile (fun c =>
        decide (32 < c.toNat ∧ c ≠ ':' ∧ c ≠ '"' ∧ c.toNat ≠ 127))
      if name.isEmpty then none
      else
        match tag1.drop name.length with
        | ':' :: '"' :: rest2 =>
            match scanQuoted rest2 [] with
            | none => none
            | some (qvalue, rest3) =>
                if String.mk name = key then (unquoteSimple qvalue).map String.mk
                else structTagGetAux fuel rest3 key
        | _ => none

/-- `reflect.StructTag.Get`, as `Option` to distinguish a missing key. -/
def structTagGet (tag key : String) : Option String :=
  structTagGetAux (tag.data.length + 1) tag.data key

/-- `encoding/json`'s `isValidTag` character set (ASCII letters and
digits plus the listed punctuation). -/
def isValidTagChar (c : Char) : Bool :=
  c.isAlphanum || "!#$%&()*+-./:;<=>?@[]^_\x7b|\x7d~ ".data.contains c

/-- `encoding/json`'s `isValidTag`: nonempty and all characters valid. -/
def isValidTag (s : List Char) : Bool :=
  !s.isEmpty && s.all isValidTagChar

/-- `encoding/json`'s field-name resolution (`typeFields`): take the name
part of the `json` tag (up to the first comma); when the tag is absent or
its name part is empty or invalid, fall back to the Go field name. -/
def jsonFieldName (fieldName tag : String) : String :=
  let t := ((structTagGet tag "json").getD "").data
  let name := t.takeWhile (fun c => !(c == ','))
  if isValidTag name then String.mk name else fieldName

/-- `encoding/json`'s string escaping (with the default HTML escaping) on
the ASCII range its inputs occupy here. -/
def jsonEscapeChar (c : Char) : List Char :=
  if c = '"' then ['\\', '"']
  else if c = '\\' then ['\\', '\\']
  else if c = '\n' then ['\\', 'n']
  else if c = '\r' then ['\\', 'r']
  else if c = '\t' then ['\\', 't']
  else if c.toNat < 32 ∨ c = '<' ∨ c = '>' ∨ c = '&' then
    '\\' :: 'u' :: '0' :: '0' :: [hexDigit (c.toNat / 16 % 16), hexDigit (c.toNat % 16)]
  else [c]

def jsonEscapeString (l : List Char) : List Char := (l.map jsonEscapeChar).flatten

/-- `json.Marshal(response{ID: roomId.String()})` for the one-field
`response` struct of `handleCreateRoom`, with its literal struct tag
written exactly as in the source. -/
def marshalIDResponse (id : String) : String :=
  String.mk ('\x7b' :: '"' :: (jsonFieldName "ID" "json\"id\"").data ++
    '"' :: ':' :: '"' :: jsonEscapeString id.data ++ ['"', '\x7d'])

/-- Outcome of decoding the request body into `_body`. -/
inductive DecodeResult where
  | ok (theme : String)
  | err
  deriving DecidableEq

/-- Outcome of `h.q.InsertRoom(r.Context(), body.Theme)`. -/
inductive InsertResult where
  | ok (u : List Nat)
  | err
  deriving DecidableEq

/-- The response `handleCreateRoom` shapes: status (defaulting to 200
when `Write` runs without `WriteHeader`), content-type, body. -/
structure CreateRoomResult where
  status : Nat
  contentType : Option String
  body : String
  deriving DecidableEq

/-- `handleCreateRoom`: decode the body, insert the room, marshal
`response{ID: roomId.String()}` discarding the marshal error, set the
content-type header and write the data discarding the write error
(`writeFails` models whether `w.Write` reports one); the status is 200
because `WriteHeader` is never called on the success path. -/
def handleCreateRoom (decode : DecodeResult) (insert : String → InsertResult)
    (writeFails : Bool) : CreateRoomResult :=
  match decode with
  | .err =>
      { status := 400, contentType := some "text/plain; charset=utf-8"
        body := "Invalid JSON\n" }
  | .ok theme =>
      match insert theme with
      | .err =>
          { status := 500, contentType := some "text/plain; charset=utf-8"
            body := "Something went wrong\n" }
      | .ok u =>
          { status := 200, contentType := some "application/json"
            body := marshalIDResponse (uuidString u) }

theorem jsonEscapeChar_hexDigit : ∀ n, n < 16 → jsonEscapeChar (hexDigit n) = [hexDigit n] := by
  decide

theorem jsonEscapeString_append (a b : List Char) :
    jsonEscapeString (a ++ b) = jsonEscapeString a ++ jsonEscapeString b := by
  simp [jsonEscapeString]

theorem jsonEscapeString_cons_dash (l : List Char) :
    jsonEscapeString ('-' :: l) = '-' :: jsonEscapeString l := by
  have h : jsonEscapeChar '-' = ['-'] := by decide
  simp [jsonEscapeString, h]

theorem jsonEscapeString_bytesHex (l : List Nat) :
    jsonEscapeString (bytesHex l) = bytesHex l := by
  induction l with
  | nil => rfl
  | cons b rest ih =>
      have hb : bytesHex (b :: rest) = byteHex b ++ bytesHex rest := by
        simp [bytesHex]
      rw [hb, jsonEscapeString_append, ih]
      have h1 := jsonEscapeChar_hexDigit (b / 16 % 16) (Nat.mod_lt _ (by norm_num))
      have h2 := jsonEscapeChar_hexDigit (b % 16) (Nat.mod_lt _ (by norm_num))
      simp [jsonEscapeString, byteHex, h1, h2]

theorem jsonEscapeString_uuidChars (u : List Nat) :
    jsonEscapeString (uuidChars u) = uuidChars u := by
  unfold uuidChars
  rw [jsonEscapeString_append, jsonEscapeString_cons_dash,
    jsonEscapeString_append, jsonEscapeString_cons_dash,
    jsonEscapeString_append, jsonEscapeString_cons_dash,
    jsonEscapeString_append, jsonEscapeString_cons_dash,
    jsonEscapeString_bytesHex, jsonEscapeString_bytesHex,
    jsonEscapeString_bytesHex, jsonEscapeString_bytesHex,
    jsonEscapeString_bytesHex]

theorem marshalIDResponse_uuid (u : List Nat) :
    marshalIDResponse (uuidString u) = "\x7b\"ID\":\"" ++ uuidString u ++ "\"\x7d" := by
  have hname : jsonFieldName "ID" "json\"id\"" = "ID" := by decide
  unfold marshalIDResponse uuidString
  rw [hname]
  show String.mk _ = String.mk _
  apply congrArg
  rw [show (String.mk (uuidChars u)).data = uuidChars u from rfl,
    jsonEscapeString_uuidChars]
  simp

/-- C10: a successful room creation responds with status 200,
content-type application/json, and a JSON object whose single key is
"ID": the struct tag `json"id"` lacks the colon of the `key:"value"`
form, so the `json` tag lookup finds nothing and Go's default field name
is used; the value is the canonical string form of the new room's UUID,
and the write-error outcome has no influence on the response. -/
theorem createRoom_success_response (decode : DecodeResult)
    (insert : String → InsertResult) (writeFails : Bool) (theme : String)
    (u : List Nat) (hd : decode = .ok theme) (hi : insert theme = .ok u) :
    (handleCreateRoom decode insert writeFails).status = 200 ∧
    (handleCreateRoom decode insert writeFails).contentType =
      some "application/json" ∧
    structTagGet "json\"id\"" "json" = none ∧
    jsonFieldName "ID" "json\"id\"" = "ID" ∧
    (handleCreateRoom decode insert writeFails).body =
      "\x7b\"ID\":\"" ++ uuidString u ++ "\"\x7d" ∧
    handleCreateRoom decode insert true = handleCreateRoom decode insert false := by
  subst hd
  refine ⟨by simp [handleCreateRoom, hi], by simp [handleCreateRoom, hi],
    by decide, by decide, ?_, ?_⟩
  · simp only [handleCreateRoom, hi]
    exact marshalIDResponse_uuid u
  · simp only [handleCreateRoom]

theorem createRoom_success_response_witness :
    ((fun _ : String => InsertResult.ok (List.replicate 16 0)) "t" =
      InsertResult.ok (List.replicate 16 0)) ∧
    (handleCreateRoom (.ok "t")
      (fun _ => InsertResult.ok (List.replicate 16 0)) false).status = 200 ∧
    (handleCreateRoom (.ok "t")
      (fun _ => InsertResult.ok (List.replicate 16 0)) false).body =
      "\x7b\"ID\":\"" ++ uuidString (List.replicate 16 0) ++ "\"\x7d" := by
  obtain ⟨h1, _, _, _, h5, _⟩ :=
    createRoom_success_response (.ok "t")
      (fun _ => InsertResult.ok (List.replicate 16 0)) false "t"
      (List.replicate 16 0) rfl rfl
  exact ⟨rfl, h1, h5⟩

end RoomServer
